import Mathlib

set_option maxRecDepth 100000

/-!
Verification of the PCI IDE-controller scan and single-sector read routine
(`efi_main` in the repository's UEFI guide, Part2.md).

The routine is embedded shallowly: every firmware call (`LocateHandleBuffer`,
`HandleProtocol`, `PciIo->Pci.Read`, `BlockIo->ReadBlocks`, `AllocateZeroPool`,
`FreePool`, `Print`) is modelled by an environment describing what the firmware
answers, and the routine's behaviour is a pure function from that environment to
a final status together with a trace of observable events (console output,
allocations, releases, firmware requests).
-/

namespace UefiGuide

/-- An `EFI_STATUS`: `success` is `EFI_SUCCESS` (zero); `error e` is a nonzero
status code, for which the C macro `EFI_ERROR` is true. -/
inductive EfiStatus where
  | success : EfiStatus
  | error : Nat → EfiStatus
  deriving DecidableEq, Repr

def EFI_SUCCESS : EfiStatus := EfiStatus.success

/-- `EFI_NOT_FOUND` (error code 14). -/
def EFI_NOT_FOUND : EfiStatus := EfiStatus.error 14

/-- `EFI_OUT_OF_RESOURCES` (error code 9). -/
def EFI_OUT_OF_RESOURCES : EfiStatus := EfiStatus.error 9

/-- The three bytes read from PCI configuration space at
`PCI_CLASSCODE_OFFSET` into the C array `UINT8 ClassCode[3]`:
`progIF = ClassCode[0]`, `subclass = ClassCode[1]`, `baseClass = ClassCode[2]`. -/
structure ClassCode where
  progIF : Nat
  subclass : Nat
  baseClass : Nat
  deriving DecidableEq, Repr

def PCI_CLASS_MASS_STORAGE : Nat := 0x01

def PCI_CLASS_MASS_STORAGE_IDE : Nat := 0x01

/-- The class-signature test of the source:
`ClassCode[2] == PCI_CLASS_MASS_STORAGE && ClassCode[1] == PCI_CLASS_MASS_STORAGE_IDE`
(the interface byte `ClassCode[0]` is not consulted). -/
def isIdeMatch (cc : ClassCode) : Bool :=
  cc.baseClass == PCI_CLASS_MASS_STORAGE && cc.subclass == PCI_CLASS_MASS_STORAGE_IDE

/-- The Block I/O protocol interface of one handle: its media identifier
(`BlockIo->Media->MediaId`) and the behaviour of `BlockIo->ReadBlocks`,
taking the media id, the logical block address and the byte count, and
returning either the bytes the firmware wrote into the destination buffer
or a nonzero error code. -/
structure BlockDev where
  mediaId : Nat
  readBlocks : Nat → Nat → Nat → Except Nat (List Nat)

/-- The firmware's behaviour on one enumerated handle:
`pciBind` is `HandleProtocol(handle, &gEfiPciIoProtocolGuid, ...)`,
`classRead` is `PciIo->Pci.Read` of the 3 class-code bytes, and
`blockBind` is `HandleProtocol(handle, &gEfiBlockIoProtocolGuid, ...)`. -/
structure HandleDev where
  pciBind : Except Nat Unit
  classRead : Except Nat ClassCode
  blockBind : Except Nat BlockDev

/-- The whole firmware environment of one run: the result of
`LocateHandleBuffer(ByProtocol, &gEfiPciIoProtocolGuid, ...)` and whether the
single `AllocateZeroPool` call succeeds. -/
structure Env where
  locate : Except Nat (List HandleDev)
  allocOk : Bool

/-- `UINT32 LBA = 0` of the source. -/
def LBA : Nat := 0

/-- `UINTN BufferSize = 512` of the source. -/
def BufferSize : Nat := 512

def msgLocateFail : String := "Failed to locate PCI I/O handles"

def msgFound : String := "Found PCI IDE controller"

def msgBlockFail : String := "Failed to locate Block I/O protocol"

def msgAllocFail : String := "Failed to allocate buffer"

def msgReadFail : String := "Failed to read sector"

def msgSector : String := "Sector content:"

def msgNotFound : String := "No PCI IDE controller found"

/-- Observable events of a run, in program order:
`msg s` is a status-line `Print`; `hexByte b` is one `Print(L"%02x ", b)` of the
dump loop; `newline` is the `Print(L"\n")` emitted after each 16 dump bytes;
`pciBindReq` marks the `HandleProtocol(PciIo)` call that opens each loop
iteration (one per examined handle); `locateAlloc` is the handle-buffer
allocation performed by a successful `LocateHandleBuffer`; `locateFree` would be
a `FreePool(HandleBuffer)` call; `bufAlloc c` is a successful
`AllocateZeroPool` returning contents `c`; `bufFree` is `FreePool(Buffer)`;
`readReq mid lba size` is the `ReadBlocks` request. -/
inductive Event where
  | msg : String → Event
  | hexByte : Nat → Event
  | newline : Event
  | pciBindReq : Event
  | locateAlloc : Event
  | locateFree : Event
  | bufAlloc : List Nat → Event
  | bufFree : Event
  | readReq : Nat → Nat → Nat → Event
  deriving DecidableEq, Repr

/-- The firmware writes the bytes it returns into the front of the
zero-initialised destination buffer; the remainder keeps its previous
(zero) contents.  `fillFrom buf data` overwrites `buf` with `data`. -/
def fillFrom : List Nat → List Nat → List Nat
  | buf, [] => buf
  | [], _ => []
  | _ :: buf, d :: ds => d :: fillFrom buf ds

/-- Contents of the transfer buffer after a successful `ReadBlocks` that
returned `data`: the zero-filled 512-byte buffer overwritten from the front. -/
def bufAfterRead (data : List Nat) : List Nat :=
  fillFrom (List.replicate BufferSize 0) data

/-- The dump loop of the source, from position `i` on:
`Print(L"%02x ", Buffer[i])`, followed by `Print(L"\n")` when
`(i + 1) % 16 == 0`. -/
def dumpFrom : Nat → List Nat → List Event
  | _, [] => []
  | i, b :: rest =>
    Event.hexByte b :: ((if (i + 1) % 16 = 0 then [Event.newline] else []) ++ dumpFrom (i + 1) rest)

/-- How the loop body leaves the `for` loop of the source. -/
inductive LoopExit where
  | ret : EfiStatus → LoopExit
  | brk : LoopExit
  | exhausted : LoopExit
  deriving DecidableEq, Repr

/-- The `for (Index = 0; Index < HandleCount; Index++)` loop of the source,
over the remaining handles; returns the events of the loop and how it exited. -/
def scanLoop (allocOk : Bool) : List HandleDev → List Event × LoopExit
  | [] => ([], LoopExit.exhausted)
  | h :: rest =>
    match h.pciBind with
    | Except.error _ =>
      let r := scanLoop allocOk rest
      (Event.pciBindReq :: r.1, r.2)
    | Except.ok _ =>
      match h.classRead with
      | Except.error _ =>
        let r := scanLoop allocOk rest
        (Event.pciBindReq :: r.1, r.2)
      | Except.ok cc =>
        if isIdeMatch cc then
          match h.blockBind with
          | Except.error _ =>
            let r := scanLoop allocOk rest
            (Event.pciBindReq :: Event.msg msgFound :: Event.msg msgBlockFail :: r.1, r.2)
          | Except.ok dev =>
            if allocOk then
              match dev.readBlocks dev.mediaId LBA BufferSize with
              | Except.error e =>
                (Event.pciBindReq :: Event.msg msgFound ::
                  Event.bufAlloc (List.replicate BufferSize 0) ::
                  Event.readReq dev.mediaId LBA BufferSize ::
                  Event.msg msgReadFail :: Event.bufFree :: [],
                 LoopExit.ret (EfiStatus.error e))
              | Except.ok data =>
                (Event.pciBindReq :: Event.msg msgFound ::
                  Event.bufAlloc (List.replicate BufferSize 0) ::
                  Event.readReq dev.mediaId LBA BufferSize ::
                  Event.msg msgSector ::
                  (dumpFrom 0 (bufAfterRead data) ++ [Event.bufFree]),
                 LoopExit.brk)
            else
              (Event.pciBindReq :: Event.msg msgFound :: Event.msg msgAllocFail :: [],
               LoopExit.ret EFI_OUT_OF_RESOURCES)
        else
          let r := scanLoop allocOk rest
          (Event.pciBindReq :: r.1, r.2)

/-- The routine `efi_main` of the source, as a function from the firmware
environment to the returned `EFI_STATUS` and the trace of events.
After the loop, `if (Index == HandleCount)` holds exactly when the loop
exhausted the handle list without `break`ing, and yields `EFI_NOT_FOUND`;
a `break` reaches `return EFI_SUCCESS`. -/
def efi_main (env : Env) : EfiStatus × List Event :=
  match env.locate with
  | Except.error e => (EfiStatus.error e, [Event.msg msgLocateFail])
  | Except.ok handles =>
    match scanLoop env.allocOk handles with
    | (evs, LoopExit.ret s) => (s, Event.locateAlloc :: evs)
    | (evs, LoopExit.brk) => (EFI_SUCCESS, Event.locateAlloc :: evs)
    | (evs, LoopExit.exhausted) =>
      (EFI_NOT_FOUND, Event.locateAlloc :: (evs ++ [Event.msg msgNotFound]))

/-! ### Trace observations -/

/-- The class signature of a handle, when readable along the source's path
(`HandleProtocol(PciIo)` succeeds and `PciIo->Pci.Read` succeeds). -/
def sigOf (h : HandleDev) : Option ClassCode :=
  match h.pciBind with
  | Except.error _ => none
  | Except.ok _ =>
    match h.classRead with
    | Except.error _ => none
    | Except.ok cc => some cc

/-- A handle whose class signature is readable and does not match. -/
def sigNonMatch (h : HandleDev) : Bool :=
  match sigOf h with
  | none => false
  | some cc => !isIdeMatch cc

/-- A handle the loop body passes over (falls through to the next iteration):
configuration access fails to bind, or the class read fails, or the signature
does not match, or it matches but Block I/O fails to bind. -/
def skipsHandle (h : HandleDev) : Bool :=
  match h.pciBind with
  | Except.error _ => true
  | Except.ok _ =>
    match h.classRead with
    | Except.error _ => true
    | Except.ok cc =>
      if isIdeMatch cc then
        match h.blockBind with
        | Except.error _ => true
        | Except.ok _ => false
      else true

/-- A handle on which the loop never enters the selection branch:
its class signature is unreadable or does not match. -/
def noMatchAt (h : HandleDev) : Bool :=
  match sigOf h with
  | none => true
  | some cc => !isIdeMatch cc

/-- The events one passed-over handle contributes to the trace. -/
def skipEvents (h : HandleDev) : List Event :=
  match h.pciBind with
  | Except.error _ => [Event.pciBindReq]
  | Except.ok _ =>
    match h.classRead with
    | Except.error _ => [Event.pciBindReq]
    | Except.ok cc =>
      if isIdeMatch cc then
        [Event.pciBindReq, Event.msg msgFound, Event.msg msgBlockFail]
      else [Event.pciBindReq]

def isPciBindEv : Event → Bool
  | Event.pciBindReq => true
  | _ => false

/-- How many handles a trace examined (one `HandleProtocol(PciIo)` call each). -/
def countExamined (evs : List Event) : Nat :=
  evs.countP isPciBindEv

def isFoundMsg : Event → Bool
  | Event.msg s => s == msgFound
  | _ => false

/-- How many times the selection line `Found PCI IDE controller` was printed. -/
def countFound (evs : List Event) : Nat :=
  evs.countP isFoundMsg

def isBufAllocEv : Event → Bool
  | Event.bufAlloc _ => true
  | _ => false

def isBufFreeEv : Event → Bool
  | Event.bufFree => true
  | _ => false

/-- Successful transfer-buffer allocations in a trace. -/
def countBufAlloc (evs : List Event) : Nat :=
  evs.countP isBufAllocEv

/-- Transfer-buffer releases in a trace. -/
def countBufFree (evs : List Event) : Nat :=
  evs.countP isBufFreeEv

def hexByteOf : Event → Option Nat
  | Event.hexByte b => some b
  | _ => none

/-- The bytes of the hex dump a trace emitted, in order. -/
def dumpBytes (evs : List Event) : List Nat :=
  evs.filterMap hexByteOf

def selIdxAux : Nat → List Event → Option Nat
  | _, [] => none
  | n, e :: rest =>
    if isFoundMsg e then some (n - 1)
    else selIdxAux (if isPciBindEv e then n + 1 else n) rest

/-- The zero-based position, in the examined-handle order, of the handle being
processed when the selection line is first printed (`none` when no handle was
ever selected). -/
def selectionIndex (evs : List Event) : Option Nat :=
  selIdxAux 0 evs

/-! ### Rendering the console output of the dump loop -/

/-- Hex digit of the `%x` conversion: `0`–`9` then lowercase `a`–`f`. -/
def hexDigit (n : Nat) : Char :=
  if n < 10 then Char.ofNat (48 + n) else Char.ofNat (87 + n)

/-- The text `%02x` produces for one byte: exactly two hex digits. -/
def hex2 (b : Nat) : String :=
  String.mk [hexDigit (b / 16 % 16), hexDigit (b % 16)]

/-- The console text of one event of the dump loop: a byte prints as its two
hex digits followed by a single space, the per-16-bytes line break prints as a
newline, and no other event prints inside the dump. -/
def hexText : Event → String
  | Event.hexByte b => hex2 b ++ " "
  | Event.newline => "\n"
  | _ => ""

def strConcat : List String → String
  | [] => ""
  | s :: rest => s ++ strConcat rest

/-- The hex-dump portion of the console output of a trace. -/
def dumpString (evs : List Event) : String :=
  strConcat (evs.map hexText)

/-- The 16-byte lines of a sector. -/
def chunks16 : List Nat → List (List Nat)
  | [] => []
  | b :: rest => ((b :: rest).take 16) :: chunks16 (rest.drop 15)
termination_by l => l.length
decreasing_by simp; omega

/-- A list of strings joined with a single space between consecutive elements
and no other delimiter. -/
def spaceSep : List String → String
  | [] => ""
  | [t] => t
  | t :: rest => t ++ " " ++ spaceSep rest

/-- One dump line as the source prints it: the line's bytes, each as two hex
digits, separated by single spaces, then a trailing space and the line break. -/
def specLine (c : List Nat) : String :=
  spaceSep (c.map hex2) ++ " " ++ "\n"

/-- The whole dump in line-structured form: one `specLine` per 16-byte chunk. -/
def specDump (data : List Nat) : String :=
  strConcat ((chunks16 data).map specLine)

/-- The events the dump loop emits for one full 16-byte line: its bytes
followed by the line break. -/
def lineEvents (c : List Nat) : List Event :=
  c.map Event.hexByte ++ [Event.newline]

/-! ### Concrete firmware environments used as witnesses and counterexamples -/

/-- A working block device: short known content. -/
def devOk : BlockDev := ⟨7, fun _ _ _ => Except.ok [17, 34, 51]⟩

/-- A block device holding a full known 512-byte sector. -/
def devFull : BlockDev := ⟨1, fun _ _ _ => Except.ok (List.replicate 512 171)⟩

/-- A block device whose read fails with error code 21. -/
def devReadErr : BlockDev := ⟨2, fun _ _ _ => Except.error 21⟩

/-- An IDE controller (base 0x01, sub 0x01, iface 0x80) with working Block I/O. -/
def hIde : HandleDev := ⟨Except.ok (), Except.ok ⟨0x80, 0x01, 0x01⟩, Except.ok devOk⟩

/-- An IDE controller whose device holds a full 512-byte sector. -/
def hIdeFull : HandleDev := ⟨Except.ok (), Except.ok ⟨0x80, 0x01, 0x01⟩, Except.ok devFull⟩

/-- A SATA controller (base 0x01, sub 0x06, iface 0x00): must be rejected. -/
def hSata : HandleDev := ⟨Except.ok (), Except.ok ⟨0x00, 0x06, 0x01⟩, Except.ok devOk⟩

/-- An IDE controller on which Block I/O fails to bind (error code 3). -/
def hNoBlock : HandleDev := ⟨Except.ok (), Except.ok ⟨0x80, 0x01, 0x01⟩, Except.error 3⟩

/-- A handle that does not expose PCI configuration access. -/
def hPciFail : HandleDev := ⟨Except.error 5, Except.error 5, Except.error 5⟩

/-- A handle whose configuration access binds but whose class read fails. -/
def hClassFail : HandleDev := ⟨Except.ok (), Except.error 6, Except.ok devOk⟩

/-- An IDE controller whose block read fails. -/
def hReadErr : HandleDev := ⟨Except.ok (), Except.ok ⟨0x80, 0x01, 0x01⟩, Except.ok devReadErr⟩

/-- Two matching handles; the first one lacks Block I/O. -/
def envC3 : Env := ⟨Except.ok [hNoBlock, hIde], true⟩

/-- A single fully-working IDE handle. -/
def envC9 : Env := ⟨Except.ok [hIde], true⟩

/-! ### Structural lemmas about the scan loop -/

theorem sigOf_eq_some {h : HandleDev} {cc : ClassCode} :
    sigOf h = some cc ↔ h.pciBind = Except.ok () ∧ h.classRead = Except.ok cc := by
  rcases hp : h.pciBind with e | u
  · simp [sigOf, hp]
  · cases u
    rcases hc : h.classRead with e | c
    · simp [sigOf, hp, hc]
    · simp [sigOf, hp, hc]

theorem isIdeMatch_iff (cc : ClassCode) :
    isIdeMatch cc = true ↔
      cc.baseClass = PCI_CLASS_MASS_STORAGE ∧ cc.subclass = PCI_CLASS_MASS_STORAGE_IDE := by
  simp [isIdeMatch]

theorem scanLoop_nil (a : Bool) : scanLoop a [] = ([], LoopExit.exhausted) := rfl

theorem scanLoop_pciFail (a : Bool) (h : HandleDev) (rest : List HandleDev) (e : Nat)
    (hp : h.pciBind = Except.error e) :
    scanLoop a (h :: rest) = (Event.pciBindReq :: (scanLoop a rest).1, (scanLoop a rest).2) := by
  simp [scanLoop, hp]

theorem scanLoop_classFail (a : Bool) (h : HandleDev) (rest : List HandleDev) (e : Nat)
    (hp : h.pciBind = Except.ok ()) (hc : h.classRead = Except.error e) :
    scanLoop a (h :: rest) = (Event.pciBindReq :: (scanLoop a rest).1, (scanLoop a rest).2) := by
  simp [scanLoop, hp, hc]

theorem scanLoop_nonMatch (a : Bool) (h : HandleDev) (rest : List HandleDev) (cc : ClassCode)
    (hp : h.pciBind = Except.ok ()) (hc : h.classRead = Except.ok cc)
    (hm : isIdeMatch cc = false) :
    scanLoop a (h :: rest) = (Event.pciBindReq :: (scanLoop a rest).1, (scanLoop a rest).2) := by
  simp [scanLoop, hp, hc, hm]

theorem scanLoop_blockFail (a : Bool) (m : HandleDev) (rest : List HandleDev) (cc : ClassCode)
    (e : Nat) (hp : m.pciBind = Except.ok ()) (hc : m.classRead = Except.ok cc)
    (hm : isIdeMatch cc = true) (hb : m.blockBind = Except.error e) :
    scanLoop a (m :: rest) =
      (Event.pciBindReq :: Event.msg msgFound :: Event.msg msgBlockFail :: (scanLoop a rest).1,
       (scanLoop a rest).2) := by
  simp [scanLoop, hp, hc, hm, hb]

theorem scanLoop_allocFail (m : HandleDev) (rest : List HandleDev) (cc : ClassCode)
    (dev : BlockDev) (hp : m.pciBind = Except.ok ()) (hc : m.classRead = Except.ok cc)
    (hm : isIdeMatch cc = true) (hb : m.blockBind = Except.ok dev) :
    scanLoop false (m :: rest) =
      ([Event.pciBindReq, Event.msg msgFound, Event.msg msgAllocFail],
       LoopExit.ret EFI_OUT_OF_RESOURCES) := by
  simp [scanLoop, hp, hc, hm, hb]

theorem scanLoop_readFail (m : HandleDev) (rest : List HandleDev) (cc : ClassCode)
    (dev : BlockDev) (e : Nat) (hp : m.pciBind = Except.ok ()) (hc : m.classRead = Except.ok cc)
    (hm : isIdeMatch cc = true) (hb : m.blockBind = Except.ok dev)
    (hr : dev.readBlocks dev.mediaId LBA BufferSize = Except.error e) :
    scanLoop true (m :: rest) =
      ([Event.pciBindReq, Event.msg msgFound,
        Event.bufAlloc (List.replicate BufferSize 0),
        Event.readReq dev.mediaId LBA BufferSize,
        Event.msg msgReadFail, Event.bufFree],
       LoopExit.ret (EfiStatus.error e)) := by
  simp [scanLoop, hp, hc, hm, hb, hr]

theorem scanLoop_readOk (m : HandleDev) (rest : List HandleDev) (cc : ClassCode)
    (dev : BlockDev) (data : List Nat) (hp : m.pciBind = Except.ok ())
    (hc : m.classRead = Except.ok cc) (hm : isIdeMatch cc = true)
    (hb : m.blockBind = Except.ok dev)
    (hr : dev.readBlocks dev.mediaId LBA BufferSize = Except.ok data) :
    scanLoop true (m :: rest) =
      (Event.pciBindReq :: Event.msg msgFound ::
        Event.bufAlloc (List.replicate BufferSize 0) ::
        Event.readReq dev.mediaId LBA BufferSize ::
        Event.msg msgSector ::
        (dumpFrom 0 (bufAfterRead data) ++ [Event.bufFree]),
       LoopExit.brk) := by
  simp [scanLoop, hp, hc, hm, hb, hr]

theorem skipsHandle_of_sigNonMatch {h : HandleDev} (hs : sigNonMatch h = true) :
    skipsHandle h = true := by
  rcases hp : h.pciBind with e | u
  · simp [skipsHandle, hp]
  · cases u
    rcases hc : h.classRead with e | cc
    · simp [skipsHandle, hp, hc]
    · simp [sigNonMatch, sigOf, hp, hc] at hs
      simp [skipsHandle, hp, hc, hs]

theorem skipEvents_of_sigNonMatch {h : HandleDev} (hs : sigNonMatch h = true) :
    skipEvents h = [Event.pciBindReq] := by
  rcases hp : h.pciBind with e | u
  · simp [skipEvents, hp]
  · cases u
    rcases hc : h.classRead with e | cc
    · simp [skipEvents, hp, hc]
    · simp [sigNonMatch, sigOf, hp, hc] at hs
      simp [skipEvents, hp, hc, hs]

theorem skipsHandle_of_noMatchAt {h : HandleDev} (hs : noMatchAt h = true) :
    skipsHandle h = true := by
  rcases hp : h.pciBind with e | u
  · simp [skipsHandle, hp]
  · cases u
    rcases hc : h.classRead with e | cc
    · simp [skipsHandle, hp, hc]
    · simp [noMatchAt, sigOf, hp, hc] at hs
      simp [skipsHandle, hp, hc, hs]

theorem scanLoop_skip (a : Bool) (h : HandleDev) (rest : List HandleDev)
    (hs : skipsHandle h = true) :
    scanLoop a (h :: rest) = (skipEvents h ++ (scanLoop a rest).1, (scanLoop a rest).2) := by
  rcases hp : h.pciBind with e | u
  · simp [scanLoop, skipEvents, hp]
  · cases u
    rcases hc : h.classRead with e | cc
    · simp [scanLoop, skipEvents, hp, hc]
    · by_cases hm : isIdeMatch cc
      · rcases hb : h.blockBind with e | dev
        · simp [scanLoop, skipEvents, hp, hc, hm, hb]
        · exfalso
          simp [skipsHandle, hp, hc, hm, hb] at hs
      · simp [scanLoop, skipEvents, hp, hc, hm]

theorem scanLoop_skipAll (a : Bool) :
    ∀ pre l : List HandleDev, (∀ h ∈ pre, skipsHandle h = true) →
      scanLoop a (pre ++ l) =
        ((pre.map skipEvents).flatten ++ (scanLoop a l).1, (scanLoop a l).2) := by
  intro pre
  induction pre with
  | nil => intro l _; simp
  | cons h rest ih =>
    intro l hall
    have hh : skipsHandle h = true := hall h (by simp)
    have hrest : ∀ x ∈ rest, skipsHandle x = true := fun x hx => hall x (by simp [hx])
    calc scanLoop a ((h :: rest) ++ l)
        = (skipEvents h ++ (scanLoop a (rest ++ l)).1, (scanLoop a (rest ++ l)).2) :=
          scanLoop_skip a h (rest ++ l) hh
      _ = (((h :: rest).map skipEvents).flatten ++ (scanLoop a l).1, (scanLoop a l).2) := by
          rw [ih l hrest]; simp [List.append_assoc]

/-! ### Counting lemmas -/

theorem countP_dumpFrom (p : Event → Bool) (hhex : ∀ b, p (Event.hexByte b) = false)
    (hnl : p Event.newline = false) :
    ∀ (l : List Nat) (i : Nat), List.countP p (dumpFrom i l) = 0 := by
  intro l
  induction l with
  | nil => intro i; simp [dumpFrom]
  | cons b rest ih =>
    intro i
    by_cases hmod : (i + 1) % 16 = 0
    · simp [dumpFrom, hmod, List.countP_cons, List.countP_append, hhex, hnl, ih]
    · simp [dumpFrom, hmod, List.countP_cons, hhex, ih]

theorem countExamined_dumpFrom (i : Nat) (l : List Nat) :
    countExamined (dumpFrom i l) = 0 :=
  countP_dumpFrom isPciBindEv (fun _ => rfl) rfl l i

theorem countFound_dumpFrom (i : Nat) (l : List Nat) :
    countFound (dumpFrom i l) = 0 :=
  countP_dumpFrom isFoundMsg (fun _ => rfl) rfl l i

theorem countBufAlloc_dumpFrom (i : Nat) (l : List Nat) :
    countBufAlloc (dumpFrom i l) = 0 :=
  countP_dumpFrom isBufAllocEv (fun _ => rfl) rfl l i

theorem countBufFree_dumpFrom (i : Nat) (l : List Nat) :
    countBufFree (dumpFrom i l) = 0 :=
  countP_dumpFrom isBufFreeEv (fun _ => rfl) rfl l i

theorem dumpBytes_dumpFrom : ∀ (l : List Nat) (i : Nat), dumpBytes (dumpFrom i l) = l := by
  intro l
  induction l with
  | nil => intro i; simp [dumpFrom, dumpBytes]
  | cons b rest ih =>
    intro i
    by_cases hmod : (i + 1) % 16 = 0
    · simp [dumpFrom, hmod, dumpBytes, hexByteOf] at ih ⊢
      exact ih (i + 1)
    · simp [dumpFrom, hmod, dumpBytes, hexByteOf] at ih ⊢
      exact ih (i + 1)

theorem countExamined_replicate (n : Nat) :
    countExamined (List.replicate n Event.pciBindReq) = n := by
  induction n with
  | zero => rfl
  | succ k ih => simp [List.replicate_succ, countExamined, List.countP_cons, isPciBindEv] at ih ⊢; omega

theorem flatten_skipEvents_of_sigNonMatch {pre : List HandleDev}
    (hpre : ∀ h ∈ pre, sigNonMatch h = true) :
    (pre.map skipEvents).flatten = List.replicate pre.length Event.pciBindReq := by
  induction pre with
  | nil => rfl
  | cons h rest ih =>
    have h1 : skipEvents h = [Event.pciBindReq] := skipEvents_of_sigNonMatch (hpre h (by simp))
    have h2 := ih (fun x hx => hpre x (by simp [hx]))
    simp [h1, h2, List.replicate_succ]

/-! ### Selection-index lemmas -/

theorem selIdxAux_pciBind (n : Nat) (evs : List Event) :
    selIdxAux n (Event.pciBindReq :: evs) = selIdxAux (n + 1) evs := by
  simp [selIdxAux, isFoundMsg, isPciBindEv]

theorem selIdxAux_found (n : Nat) (evs : List Event) :
    selIdxAux n (Event.msg msgFound :: evs) = some (n - 1) := by
  simp [selIdxAux, isFoundMsg]

theorem selIdxAux_replicate (n : Nat) :
    ∀ (k : Nat) (evs : List Event),
      selIdxAux k (List.replicate n Event.pciBindReq ++ evs) = selIdxAux (k + n) evs := by
  induction n with
  | zero => intro k evs; simp
  | succ j ih =>
    intro k evs
    rw [List.replicate_succ, List.cons_append, selIdxAux_pciBind, ih]
    congr 1
    omega

theorem scanLoop_found_single (a : Bool) (m : HandleDev) (cc : ClassCode)
    (hsig : sigOf m = some cc) (hm : isIdeMatch cc = true) :
    ∃ tail, (scanLoop a [m]).1 = Event.pciBindReq :: Event.msg msgFound :: tail ∧
      countExamined tail = 0 := by
  obtain ⟨hp, hc⟩ := sigOf_eq_some.mp hsig
  rcases hb : m.blockBind with e | dev
  · refine ⟨[Event.msg msgBlockFail], ?_, rfl⟩
    rw [scanLoop_blockFail a m [] cc e hp hc hm hb]
    rfl
  · cases a with
    | false =>
      refine ⟨[Event.msg msgAllocFail], ?_, rfl⟩
      rw [scanLoop_allocFail m [] cc dev hp hc hm hb]
    | true =>
      rcases hr : dev.readBlocks dev.mediaId LBA BufferSize with e | data
      · refine ⟨[Event.bufAlloc (List.replicate BufferSize 0),
          Event.readReq dev.mediaId LBA BufferSize, Event.msg msgReadFail, Event.bufFree],
          ?_, rfl⟩
        rw [scanLoop_readFail m [] cc dev e hp hc hm hb hr]
      · refine ⟨Event.bufAlloc (List.replicate BufferSize 0) ::
          Event.readReq dev.mediaId LBA BufferSize :: Event.msg msgSector ::
          (dumpFrom 0 (bufAfterRead data) ++ [Event.bufFree]), ?_, ?_⟩
        · rw [scanLoop_readOk m [] cc dev data hp hc hm hb hr]
        · have h0 := countExamined_dumpFrom 0 (bufAfterRead data)
          simp [countExamined, List.countP_cons, List.countP_append, isPciBindEv] at h0 ⊢
          exact h0

theorem scanLoop_exhausted_noMatch (a : Bool) :
    ∀ hs : List HandleDev, (∀ h ∈ hs, noMatchAt h = true) →
      (scanLoop a hs).2 = LoopExit.exhausted := by
  intro hs
  induction hs with
  | nil => intro _; rfl
  | cons h rest ih =>
    intro hall
    rw [scanLoop_skip a h rest (skipsHandle_of_noMatchAt (hall h (by simp)))]
    exact ih (fun x hx => hall x (by simp [hx]))

theorem countP_skipEvents (p : Event → Bool) (hpci : p Event.pciBindReq = false)
    (hmsg : ∀ s, p (Event.msg s) = false) (h : HandleDev) :
    List.countP p (skipEvents h) = 0 := by
  rcases hp : h.pciBind with e | u
  · simp [skipEvents, hp, List.countP_cons, hpci]
  · cases u
    rcases hc : h.classRead with e | cc
    · simp [skipEvents, hp, hc, List.countP_cons, hpci]
    · by_cases hm : isIdeMatch cc
      · simp [skipEvents, hp, hc, hm, List.countP_cons, hpci, hmsg]
      · simp [skipEvents, hp, hc, hm, List.countP_cons, hpci]

theorem not_skips_iff {h : HandleDev} :
    skipsHandle h = false ↔
      ∃ cc dev, h.pciBind = Except.ok () ∧ h.classRead = Except.ok cc ∧
        isIdeMatch cc = true ∧ h.blockBind = Except.ok dev := by
  rcases hp : h.pciBind with e | u
  · simp [skipsHandle, hp]
  · cases u
    rcases hc : h.classRead with e | cc
    · simp [skipsHandle, hp, hc]
    · by_cases hm : isIdeMatch cc
      · rcases hb : h.blockBind with e | dev
        · simp [skipsHandle, hp, hc, hm, hb]
        · simp [skipsHandle, hp, hc, hm, hb]
      · simp [skipsHandle, hp, hc, hm]

theorem scanLoop_balance (a : Bool) :
    ∀ hs : List HandleDev,
      countBufFree (scanLoop a hs).1 = countBufAlloc (scanLoop a hs).1 ∧
      countBufAlloc (scanLoop a hs).1 ≤ 1 := by
  intro hs
  induction hs with
  | nil => exact ⟨rfl, by simp [scanLoop, countBufAlloc]⟩
  | cons h rest ih =>
    by_cases hsk : skipsHandle h = true
    · rw [scanLoop_skip a h rest hsk]
      have hfree := countP_skipEvents isBufFreeEv rfl (fun _ => rfl) h
      have halloc := countP_skipEvents isBufAllocEv rfl (fun _ => rfl) h
      obtain ⟨ih1, ih2⟩ := ih
      constructor
      · simp [countBufFree, countBufAlloc, List.countP_append, hfree, halloc] at ih1 ⊢
        exact ih1
      · simp [countBufAlloc, List.countP_append, halloc] at ih2 ⊢
        exact ih2
    · rw [Bool.not_eq_true] at hsk
      obtain ⟨cc, dev, hp, hc, hm, hb⟩ := not_skips_iff.mp hsk
      cases a with
      | false =>
        rw [scanLoop_allocFail h rest cc dev hp hc hm hb]
        exact ⟨rfl, by simp [countBufAlloc, List.countP_cons, isBufAllocEv]⟩
      | true =>
        rcases hr : dev.readBlocks dev.mediaId LBA BufferSize with e | data
        · rw [scanLoop_readFail h rest cc dev e hp hc hm hb hr]
          exact ⟨rfl, by simp [countBufAlloc, List.countP_cons, isBufAllocEv]⟩
        · rw [scanLoop_readOk h rest cc dev data hp hc hm hb hr]
          constructor
          · simp [countBufFree, countBufAlloc, List.countP_cons, List.countP_append,
              countP_dumpFrom isBufFreeEv (fun _ => rfl) rfl,
              countP_dumpFrom isBufAllocEv (fun _ => rfl) rfl,
              isBufFreeEv, isBufAllocEv]
          · simp [countBufAlloc, List.countP_cons, List.countP_append,
              countP_dumpFrom isBufAllocEv (fun _ => rfl) rfl, isBufAllocEv]

/-! ### Shape lemmas about trace fragments -/

theorem skipEvents_shape (h : HandleDev) :
    ∀ ev ∈ skipEvents h, ev = Event.pciBindReq ∨ ∃ s, ev = Event.msg s := by
  intro ev hev
  rcases hp : h.pciBind with e | u
  · simp [skipEvents, hp] at hev
    simp [hev]
  · cases u
    rcases hc : h.classRead with e | cc
    · simp [skipEvents, hp, hc] at hev
      simp [hev]
    · by_cases hm : isIdeMatch cc
      · simp [skipEvents, hp, hc, hm] at hev
        rcases hev with rfl | rfl | rfl
        · simp
        · exact Or.inr ⟨msgFound, rfl⟩
        · exact Or.inr ⟨msgBlockFail, rfl⟩
      · simp [skipEvents, hp, hc, hm] at hev
        simp [hev]

theorem dumpFrom_shape :
    ∀ (l : List Nat) (i : Nat) (ev : Event), ev ∈ dumpFrom i l →
      (∃ b, ev = Event.hexByte b) ∨ ev = Event.newline := by
  intro l
  induction l with
  | nil => intro i ev hev; simp [dumpFrom] at hev
  | cons b rest ih =>
    intro i ev hev
    by_cases hmod : (i + 1) % 16 = 0
    · simp [dumpFrom, hmod] at hev
      rcases hev with rfl | rfl | hev
      · exact Or.inl ⟨b, rfl⟩
      · exact Or.inr rfl
      · exact ih (i + 1) ev hev
    · simp [dumpFrom, hmod] at hev
      rcases hev with rfl | hev
      · exact Or.inl ⟨b, rfl⟩
      · exact ih (i + 1) ev hev

theorem filterMap_skipEvents_none {α : Type} (f : Event → Option α)
    (hpci : f Event.pciBindReq = none) (hmsg : ∀ s, f (Event.msg s) = none)
    (h : HandleDev) : (skipEvents h).filterMap f = [] := by
  rw [List.filterMap_eq_nil_iff]
  intro ev hev
  rcases skipEvents_shape h ev hev with rfl | ⟨s, rfl⟩
  · exact hpci
  · exact hmsg s

theorem filterMap_flatten_skips {α : Type} (f : Event → Option α)
    (hpci : f Event.pciBindReq = none) (hmsg : ∀ s, f (Event.msg s) = none) :
    ∀ pre : List HandleDev, ((pre.map skipEvents).flatten).filterMap f = [] := by
  intro pre
  induction pre with
  | nil => rfl
  | cons h rest ih =>
    simp only [List.map_cons, List.flatten_cons, List.filterMap_append, ih,
      filterMap_skipEvents_none f hpci hmsg h, List.append_nil]

theorem countP_flatten_skips (p : Event → Bool)
    (hpci : p Event.pciBindReq = false) (hmsg : ∀ s, p (Event.msg s) = false) :
    ∀ pre : List HandleDev, List.countP p ((pre.map skipEvents).flatten) = 0 := by
  intro pre
  induction pre with
  | nil => rfl
  | cons h rest ih =>
    simp only [List.map_cons, List.flatten_cons, List.countP_append, ih,
      countP_skipEvents p hpci hmsg h, Nat.add_zero]

theorem dumpBytes_dumpFrom_of_shape (i : Nat) (l : List Nat) :
    List.filterMap hexByteOf (dumpFrom i l) = l := by
  have := dumpBytes_dumpFrom l i
  simpa [dumpBytes] using this

theorem scanLoop_events_shape (a : Bool) :
    ∀ (hs : List HandleDev) (ev : Event), ev ∈ (scanLoop a hs).1 →
      (∀ c, ev = Event.bufAlloc c → c = List.replicate BufferSize 0) ∧
      (∀ mid lba sz, ev = Event.readReq mid lba sz → lba = LBA ∧ sz = BufferSize) := by
  intro hs
  induction hs with
  | nil => intro ev hev; simp [scanLoop] at hev
  | cons h rest ih =>
    intro ev hev
    by_cases hsk : skipsHandle h = true
    · rw [scanLoop_skip a h rest hsk] at hev
      simp at hev
      rcases hev with hev | hev
      · rcases skipEvents_shape h ev hev with rfl | ⟨s, rfl⟩
        · exact ⟨(fun c hc => nomatch hc), fun mid lba sz hc => nomatch hc⟩
        · exact ⟨(fun c hc => nomatch hc), fun mid lba sz hc => nomatch hc⟩
      · exact ih ev hev
    · rw [Bool.not_eq_true] at hsk
      obtain ⟨cc, dev, hp, hc, hm, hb⟩ := not_skips_iff.mp hsk
      cases a with
      | false =>
        rw [scanLoop_allocFail h rest cc dev hp hc hm hb] at hev
        simp at hev
        rcases hev with rfl | rfl | rfl <;>
          exact ⟨(fun c hc => nomatch hc), fun mid lba sz hc => nomatch hc⟩
      | true =>
        rcases hr : dev.readBlocks dev.mediaId LBA BufferSize with e | data
        · rw [scanLoop_readFail h rest cc dev e hp hc hm hb hr] at hev
          simp at hev
          rcases hev with rfl | rfl | rfl | rfl | rfl | rfl
          · exact ⟨(fun c hc => nomatch hc), fun mid lba sz hc => nomatch hc⟩
          · exact ⟨(fun c hc => nomatch hc), fun mid lba sz hc => nomatch hc⟩
          · refine ⟨fun c hc => ?_, fun mid lba sz hc => nomatch hc⟩
            cases hc
            rfl
          · refine ⟨(fun c hc => nomatch hc), fun mid lba sz hc => ?_⟩
            cases hc
            exact ⟨rfl, rfl⟩
          · exact ⟨(fun c hc => nomatch hc), fun mid lba sz hc => nomatch hc⟩
          · exact ⟨(fun c hc => nomatch hc), fun mid lba sz hc => nomatch hc⟩
        · rw [scanLoop_readOk h rest cc dev data hp hc hm hb hr] at hev
          simp at hev
          rcases hev with rfl | rfl | rfl | rfl | rfl | hev | rfl
          · exact ⟨(fun c hc => nomatch hc), fun mid lba sz hc => nomatch hc⟩
          · exact ⟨(fun c hc => nomatch hc), fun mid lba sz hc => nomatch hc⟩
          · refine ⟨fun c hc => ?_, fun mid lba sz hc => nomatch hc⟩
            cases hc
            rfl
          · refine ⟨(fun c hc => nomatch hc), fun mid lba sz hc => ?_⟩
            cases hc
            exact ⟨rfl, rfl⟩
          · exact ⟨(fun c hc => nomatch hc), fun mid lba sz hc => nomatch hc⟩
          · rcases dumpFrom_shape (bufAfterRead data) 0 ev hev with ⟨b, rfl⟩ | rfl
            · exact ⟨(fun c hc => nomatch hc), fun mid lba sz hc => nomatch hc⟩
            · exact ⟨(fun c hc => nomatch hc), fun mid lba sz hc => nomatch hc⟩
          · exact ⟨(fun c hc => nomatch hc), fun mid lba sz hc => nomatch hc⟩

/-! ### Rendering lemmas for the hex dump -/

theorem strConcat_append : ∀ a b : List String, strConcat (a ++ b) = strConcat a ++ strConcat b := by
  intro a b
  induction a with
  | nil => simp [strConcat, String.empty_append]
  | cons s rest ih => simp [strConcat, ih, String.append_assoc]

theorem dumpString_cons (e : Event) (evs : List Event) :
    dumpString (e :: evs) = hexText e ++ dumpString evs := rfl

theorem dumpString_append (a b : List Event) :
    dumpString (a ++ b) = dumpString a ++ dumpString b := by
  simp [dumpString, List.map_append, strConcat_append]

theorem dumpString_flatten : ∀ ls : List (List Event),
    dumpString ls.flatten = strConcat (ls.map dumpString) := by
  intro ls
  induction ls with
  | nil => rfl
  | cons l rest ih => simp [List.flatten_cons, dumpString_append, ih, strConcat]

theorem strConcat_map_trail : ∀ l : List String, l ≠ [] →
    strConcat (l.map (fun t => t ++ " ")) = spaceSep l ++ " " := by
  intro l
  induction l with
  | nil => intro hne; exact absurd rfl hne
  | cons t rest ih =>
    intro _
    cases rest with
    | nil => simp [strConcat, spaceSep, String.append_empty]
    | cons r rs =>
      have h1 := ih (by simp)
      simp only [List.map_cons, strConcat, spaceSep] at h1 ⊢
      rw [h1]
      simp [String.append_assoc]

theorem dumpString_lineEvents (c : List Nat) (hne : c ≠ []) :
    dumpString (lineEvents c) = specLine c := by
  have hmap : (c.map Event.hexByte).map hexText = (c.map hex2).map (fun t => t ++ " ") := by
    simp only [List.map_map]
    rfl
  have h1 : dumpString (lineEvents c) =
      strConcat ((c.map hex2).map (fun t => t ++ " ")) ++ "\n" := by
    simp only [lineEvents, dumpString, List.map_append, strConcat_append, hmap]
    simp [strConcat, hexText, String.append_empty]
  rw [h1, strConcat_map_trail (c.map hex2) (by simpa using hne)]
  simp [specLine, String.append_assoc]

theorem chunks16_cons16 : ∀ c rest : List Nat, c.length = 16 →
    chunks16 (c ++ rest) = c :: chunks16 rest := by
  intro c rest hc
  cases c with
  | nil => cases hc
  | cons b c' =>
    have hc' : c'.length = 15 := by simpa using hc
    have ht : (b :: (c' ++ rest)).take 16 = b :: c' := by
      simp only [List.take_succ_cons]
      exact congrArg (b :: ·) (List.take_left' hc')
    have hd : (c' ++ rest).drop 15 = rest := List.drop_left' hc'
    simp only [List.cons_append, chunks16, ht, hd]

theorem dumpFrom_line : ∀ (c : List Nat) (j k : Nat) (rest : List Nat),
    j + c.length = 16 → c ≠ [] →
    dumpFrom (16 * k + j) (c ++ rest) =
      (c.map Event.hexByte ++ [Event.newline]) ++ dumpFrom (16 * k + 16) rest := by
  intro c
  induction c with
  | nil => intro j k rest hj hne; exact absurd rfl hne
  | cons b c' ih =>
    intro j k rest hj hne
    cases c' with
    | nil =>
      have hj15 : j = 15 := by simp at hj; omega
      subst hj15
      have hmod : (16 * k + 15 + 1) % 16 = 0 := by omega
      have harg : 16 * k + 15 + 1 = 16 * k + 16 := by omega
      simp only [List.cons_append, List.nil_append, dumpFrom, hmod, if_pos rfl, harg]
      simp
    | cons x xs =>
      have hj1 : j + 1 + (x :: xs).length = 16 := by simp at hj ⊢; omega
      have hlt : j + 1 < 16 := by simp at hj1; omega
      have hmod : ¬((16 * k + (j + 1)) % 16 = 0) := by omega
      have hrec := ih (j + 1) k rest hj1 (by simp)
      have hstep : dumpFrom (16 * k + j) ((b :: x :: xs) ++ rest) =
          Event.hexByte b :: ((if (16 * k + j + 1) % 16 = 0 then [Event.newline] else []) ++
            dumpFrom (16 * k + j + 1) ((x :: xs) ++ rest)) := by
        simp [dumpFrom]
      have harg : 16 * k + j + 1 = 16 * k + (j + 1) := by omega
      rw [hstep, harg, if_neg hmod, hrec]
      simp

theorem dumpFrom_chunks : ∀ (n k : Nat) (data : List Nat), data.length = 16 * n →
    dumpFrom (16 * k) data = ((chunks16 data).map lineEvents).flatten := by
  intro n
  induction n with
  | zero =>
    intro k data hlen
    have hnil : data = [] := List.eq_nil_of_length_eq_zero (by simpa using hlen)
    subst hnil
    simp [chunks16, dumpFrom]
  | succ n ih =>
    intro k data hlen
    have hlen16 : (data.take 16).length = 16 := by
      rw [List.length_take, hlen]; omega
    have hdrop : (data.drop 16).length = 16 * n := by
      rw [List.length_drop, hlen]; omega
    have hne : data.take 16 ≠ [] := by
      intro h0; rw [h0] at hlen16; cases hlen16
    have hsplit : data = data.take 16 ++ data.drop 16 := (List.take_append_drop 16 data).symm
    have hline := dumpFrom_line (data.take 16) 0 k (data.drop 16) (by rw [hlen16]) hne
    simp only [Nat.add_zero] at hline
    have harg : 16 * k + 16 = 16 * (k + 1) := by omega
    rw [harg] at hline
    calc dumpFrom (16 * k) data
        = dumpFrom (16 * k) (data.take 16 ++ data.drop 16) := by rw [← hsplit]
      _ = (((data.take 16).map Event.hexByte) ++ [Event.newline]) ++
            dumpFrom (16 * (k + 1)) (data.drop 16) := hline
      _ = lineEvents (data.take 16) ++
            ((chunks16 (data.drop 16)).map lineEvents).flatten := by
          rw [ih (k + 1) (data.drop 16) hdrop]; rfl
      _ = ((chunks16 data).map lineEvents).flatten := by
          conv_rhs => rw [hsplit, chunks16_cons16 _ _ hlen16]
          simp

theorem chunks16_length_all : ∀ (n : Nat) (l : List Nat), l.length = 16 * n →
    ∀ c ∈ chunks16 l, c.length = 16 := by
  intro n
  induction n with
  | zero =>
    intro l hl c hc
    have hnil : l = [] := List.eq_nil_of_length_eq_zero (by simpa using hl)
    subst hnil
    simp [chunks16] at hc
  | succ n ih =>
    intro l hl c hc
    have hlen16 : (l.take 16).length = 16 := by rw [List.length_take, hl]; omega
    have hdrop : (l.drop 16).length = 16 * n := by rw [List.length_drop, hl]; omega
    have hsplit : l = l.take 16 ++ l.drop 16 := (List.take_append_drop 16 l).symm
    rw [hsplit, chunks16_cons16 _ _ hlen16] at hc
    rcases List.mem_cons.mp hc with rfl | hc
    · exact hlen16
    · exact ih (l.drop 16) hdrop c hc

theorem fillFrom_all : ∀ data buf : List Nat, buf.length = data.length →
    fillFrom buf data = data := by
  intro data
  induction data with
  | nil =>
    intro buf h
    have hnil : buf = [] := List.eq_nil_of_length_eq_zero (by simpa using h)
    subst hnil
    rfl
  | cons d ds ih =>
    intro buf h
    cases buf with
    | nil => simp at h
    | cons b bs =>
      simp only [fillFrom]
      exact congrArg (d :: ·) (ih bs (by simpa using h))

theorem bufAfterRead_of_full (data : List Nat) (hlen : data.length = 512) :
    bufAfterRead data = data := by
  unfold bufAfterRead
  exact fillFrom_all data (List.replicate BufferSize 0) (by simp [BufferSize, hlen])

theorem hex2_length (b : Nat) : (hex2 b).length = 2 := rfl

/-! ### Claim theorems -/

/-- Claim C1: for every handle sequence of zero or more handles whose class
signature is readable but does not match, followed by exactly one handle whose
signature matches, the scan selects that handle (the selection line is printed
while it is being processed, at its position) and stops scanning immediately:
exactly the non-matching handles plus the matching one are examined, and no
handle past the first match is examined. -/
theorem C1_first_match_selects_and_stops (a : Bool) (pre : List HandleDev)
    (m : HandleDev) (cc : ClassCode)
    (hpre : ∀ h ∈ pre, sigNonMatch h = true)
    (hsig : sigOf m = some cc) (hmatch : isIdeMatch cc = true) :
    selectionIndex (scanLoop a (pre ++ [m])).1 = some pre.length ∧
    countExamined (scanLoop a (pre ++ [m])).1 = pre.length + 1 := by
  have hskips : ∀ h ∈ pre, skipsHandle h = true :=
    fun h hh => skipsHandle_of_sigNonMatch (hpre h hh)
  obtain ⟨tail, htail, hcount⟩ := scanLoop_found_single a m cc hsig hmatch
  have hev : (scanLoop a (pre ++ [m])).1 =
      List.replicate pre.length Event.pciBindReq ++
        (Event.pciBindReq :: Event.msg msgFound :: tail) := by
    rw [scanLoop_skipAll a pre [m] hskips]
    simp [flatten_skipEvents_of_sigNonMatch hpre, htail]
  constructor
  · rw [hev]
    unfold selectionIndex
    rw [selIdxAux_replicate, selIdxAux_pciBind, selIdxAux_found]
    simp
  · rw [hev]
    have h1 := countExamined_replicate pre.length
    simp only [countExamined, List.countP_append, List.countP_cons] at h1 hcount ⊢
    simp [h1, hcount, isPciBindEv]

/-- Witness for C1: one non-matching SATA handle followed by one matching IDE
handle; the IDE handle is selected at index 1 after examining both handles. -/
theorem C1_witness :
    selectionIndex (scanLoop true ([hSata] ++ [hIde])).1 = some 1 ∧
    countExamined (scanLoop true ([hSata] ++ [hIde])).1 = 2 := by
  have h := C1_first_match_selects_and_stops true [hSata] hIde ⟨0x80, 0x01, 0x01⟩
    (by intro x hx; simp at hx; subst hx; rfl) rfl rfl
  simpa using h

/-- Claim C2: a handle with a readable class signature is selected exactly when
its base-class byte is mass-storage (0x01) and its subclass byte is IDE (0x01);
the interface byte is ignored: signature (base 0x01, sub 0x01, iface 0x80) is
accepted and signature (base 0x01, sub 0x06, iface 0x00) is rejected
(`ClassCode.mk` takes the fields in the order iface, subclass, base). -/
theorem C2_classifier_exact_match (a : Bool) (h : HandleDev) (cc : ClassCode)
    (hsig : sigOf h = some cc) :
    (selectionIndex (scanLoop a [h]).1 = some 0 ↔
      cc.baseClass = PCI_CLASS_MASS_STORAGE ∧ cc.subclass = PCI_CLASS_MASS_STORAGE_IDE) ∧
    isIdeMatch ⟨0x80, 0x01, 0x01⟩ = true ∧
    isIdeMatch ⟨0x00, 0x06, 0x01⟩ = false := by
  refine ⟨?_, rfl, rfl⟩
  rw [← isIdeMatch_iff]
  constructor
  · intro hsel
    by_contra hm
    rw [Bool.not_eq_true] at hm
    have hnm : sigNonMatch h = true := by simp [sigNonMatch, hsig, hm]
    have hev : (scanLoop a [h]).1 = [Event.pciBindReq] := by
      rw [scanLoop_skip a h [] (skipsHandle_of_sigNonMatch hnm),
        skipEvents_of_sigNonMatch hnm]
      rfl
    rw [hev] at hsel
    simp [selectionIndex, selIdxAux, isFoundMsg, isPciBindEv] at hsel
  · intro hm
    obtain ⟨tail, htail, -⟩ := scanLoop_found_single a h cc hsig hm
    unfold selectionIndex
    rw [htail, selIdxAux_pciBind, selIdxAux_found]

/-- Witness for C2: the concrete IDE handle with signature
(iface 0x80, sub 0x01, base 0x01) satisfies the classifier theorem. -/
theorem C2_witness :
    (selectionIndex (scanLoop true [hIde]).1 = some 0 ↔
      (ClassCode.mk 0x80 0x01 0x01).baseClass = PCI_CLASS_MASS_STORAGE ∧
      (ClassCode.mk 0x80 0x01 0x01).subclass = PCI_CLASS_MASS_STORAGE_IDE) ∧
    isIdeMatch ⟨0x80, 0x01, 0x01⟩ = true ∧
    isIdeMatch ⟨0x00, 0x06, 0x01⟩ = false :=
  C2_classifier_exact_match true hIde ⟨0x80, 0x01, 0x01⟩ rfl

/-- Counterexample to claim C3 as stated: in `envC3` the first handle has a
matching class signature and is selected (the selection line is printed for
it), yet its Block I/O bind failure does not abort the run: the scan falls back
to the second handle, prints the selection line a second time, and the run
completes with `EFI_SUCCESS` instead of aborting with an error. -/
theorem C3_counterexample :
    (efi_main envC3).1 = EFI_SUCCESS ∧
    countFound (efi_main envC3).2 = 2 ∧
    countExamined (efi_main envC3).2 = 2 := by decide

/-- Claim C3 as amended: a failure to bind the block-storage capability on a
selected (matching) handle is not fatal: the source prints a status line and
`continue`s, so the handle is skipped and scanning proceeds with the remaining
handles exactly as if the scan had started there; in particular the run's
status is whatever the scan of the remaining handles produces (ending in
`EFI_NOT_FOUND`, not a capability error, if nothing further completes). -/
theorem C3_amended_block_bind_nonfatal (a : Bool) (m : HandleDev)
    (rest : List HandleDev) (cc : ClassCode) (e : Nat)
    (hsig : sigOf m = some cc) (hm : isIdeMatch cc = true)
    (hb : m.blockBind = Except.error e) :
    scanLoop a (m :: rest) =
      (Event.pciBindReq :: Event.msg msgFound :: Event.msg msgBlockFail ::
        (scanLoop a rest).1, (scanLoop a rest).2) ∧
    (efi_main ⟨Except.ok (m :: rest), a⟩).1 = (efi_main ⟨Except.ok rest, a⟩).1 := by
  obtain ⟨hp, hc⟩ := sigOf_eq_some.mp hsig
  have h1 := scanLoop_blockFail a m rest cc e hp hc hm hb
  refine ⟨h1, ?_⟩
  rcases hsc : scanLoop a rest with ⟨evs, ex⟩
  rw [hsc] at h1
  cases ex with
  | ret s => simp [efi_main, h1, hsc]
  | brk => simp [efi_main, h1, hsc]
  | exhausted => simp [efi_main, h1, hsc]

/-- Witness for the amended C3: concretely, the matching handle without Block
I/O is skipped and the run continues into (and succeeds on) the next handle. -/
theorem C3_amended_witness :
    (scanLoop true [hNoBlock, hIde] =
      (Event.pciBindReq :: Event.msg msgFound :: Event.msg msgBlockFail ::
        (scanLoop true [hIde]).1, (scanLoop true [hIde]).2)) ∧
    (efi_main ⟨Except.ok [hNoBlock, hIde], true⟩).1 =
      (efi_main ⟨Except.ok [hIde], true⟩).1 :=
  C3_amended_block_bind_nonfatal true hNoBlock [hIde] ⟨0x80, 0x01, 0x01⟩ 3 rfl rfl rfl

/-- Claim C4: a handle whose PCI-configuration-access bind fails is skipped
and the scan continues exactly on the remaining handles; and whenever no
handle of the sequence has a readable matching signature (in particular when
every handle fails to bind), the run returns `EFI_NOT_FOUND`. -/
theorem C4_bind_failure_skipped_and_notfound (a : Bool) :
    (∀ (h : HandleDev) (rest : List HandleDev) (e : Nat),
        h.pciBind = Except.error e →
        scanLoop a (h :: rest) =
          (Event.pciBindReq :: (scanLoop a rest).1, (scanLoop a rest).2)) ∧
    (∀ hs : List HandleDev, (∀ h ∈ hs, noMatchAt h = true) →
        (efi_main ⟨Except.ok hs, a⟩).1 = EFI_NOT_FOUND) := by
  constructor
  · exact fun h rest e hp => scanLoop_pciFail a h rest e hp
  · intro hs hall
    have hx := scanLoop_exhausted_noMatch a hs hall
    rcases hsc : scanLoop a hs with ⟨evs, ex⟩
    rw [hsc] at hx
    simp at hx
    subst hx
    simp [efi_main, hsc]

/-- Witness for C4: a bind-failing handle is skipped, and a scan over one
bind-failing handle plus one SATA handle ends in `EFI_NOT_FOUND`. -/
theorem C4_witness :
    (scanLoop true [hPciFail] =
      (Event.pciBindReq :: (scanLoop true ([] : List HandleDev)).1,
        (scanLoop true ([] : List HandleDev)).2)) ∧
    (efi_main ⟨Except.ok [hPciFail, hSata], true⟩).1 = EFI_NOT_FOUND := by
  refine ⟨(C4_bind_failure_skipped_and_notfound true).1 hPciFail [] 5 rfl,
    (C4_bind_failure_skipped_and_notfound true).2 [hPciFail, hSata] ?_⟩
  intro h hh
  simp at hh
  rcases hh with rfl | rfl
  · rfl
  · rfl

/-- Claim C5: in every run, transfer-buffer allocations and releases are
balanced: the trace contains exactly as many `FreePool(Buffer)` events as
successful `AllocateZeroPool` events, and the buffer is allocated at most
once, so every allocation is released exactly once before the routine
returns. -/
theorem C5_transfer_buffer_always_released (env : Env) :
    countBufFree (efi_main env).2 = countBufAlloc (efi_main env).2 ∧
    countBufAlloc (efi_main env).2 ≤ 1 := by
  rcases hl : env.locate with e | handles
  · simp [efi_main, hl, countBufFree, countBufAlloc, List.countP_cons,
      isBufFreeEv, isBufAllocEv]
  · obtain ⟨h1, h2⟩ := scanLoop_balance env.allocOk handles
    rcases hsc : scanLoop env.allocOk handles with ⟨evs, ex⟩
    rw [hsc] at h1 h2
    simp at h1 h2
    cases ex with
    | ret s =>
      simp [efi_main, hl, hsc, countBufFree, countBufAlloc, List.countP_cons,
        isBufFreeEv, isBufAllocEv] at h1 h2 ⊢
      exact ⟨h1, h2⟩
    | brk =>
      simp [efi_main, hl, hsc, countBufFree, countBufAlloc, List.countP_cons,
        isBufFreeEv, isBufAllocEv] at h1 h2 ⊢
      exact ⟨h1, h2⟩
    | exhausted =>
      simp [efi_main, hl, hsc, countBufFree, countBufAlloc, List.countP_cons,
        List.countP_append, isBufFreeEv, isBufAllocEv] at h1 h2 ⊢
      exact ⟨h1, h2⟩

/-- Claim C6: when the block read of the selected handle fails with error `e`
(after any number of passed-over handles), the run terminates with exactly
that error status, which is nonzero; the transfer buffer is allocated once and
freed once; and not a single hex-dump byte is printed. -/
theorem C6_read_error_no_dump (pre : List HandleDev) (m : HandleDev)
    (post : List HandleDev) (cc : ClassCode) (dev : BlockDev) (e : Nat)
    (hpre : ∀ h ∈ pre, skipsHandle h = true)
    (hsig : sigOf m = some cc) (hm : isIdeMatch cc = true)
    (hb : m.blockBind = Except.ok dev)
    (hr : dev.readBlocks dev.mediaId LBA BufferSize = Except.error e) :
    (efi_main ⟨Except.ok (pre ++ m :: post), true⟩).1 = EfiStatus.error e ∧
    EfiStatus.error e ≠ EFI_SUCCESS ∧
    dumpBytes (efi_main ⟨Except.ok (pre ++ m :: post), true⟩).2 = [] ∧
    countBufFree (efi_main ⟨Except.ok (pre ++ m :: post), true⟩).2 = 1 ∧
    countBufAlloc (efi_main ⟨Except.ok (pre ++ m :: post), true⟩).2 = 1 := by
  obtain ⟨hp, hc⟩ := sigOf_eq_some.mp hsig
  have h1 := scanLoop_readFail m post cc dev e hp hc hm hb hr
  have h2 := scanLoop_skipAll true pre (m :: post) hpre
  rw [h1] at h2
  have hmain : efi_main ⟨Except.ok (pre ++ m :: post), true⟩ =
      (EfiStatus.error e,
        Event.locateAlloc :: ((pre.map skipEvents).flatten ++
          [Event.pciBindReq, Event.msg msgFound,
            Event.bufAlloc (List.replicate BufferSize 0),
            Event.readReq dev.mediaId LBA BufferSize,
            Event.msg msgReadFail, Event.bufFree])) := by
    simp [efi_main, h2]
  rw [hmain]
  refine ⟨rfl, by simp [EFI_SUCCESS], ?_, ?_, ?_⟩
  · simp [dumpBytes, hexByteOf, List.filterMap_append,
      filterMap_flatten_skips hexByteOf rfl (fun _ => rfl) pre]
  · simp [countBufFree, List.countP_cons, List.countP_append,
      countP_flatten_skips isBufFreeEv rfl (fun _ => rfl) pre, isBufFreeEv]
  · simp [countBufAlloc, List.countP_cons, List.countP_append,
      countP_flatten_skips isBufAllocEv rfl (fun _ => rfl) pre, isBufAllocEv]

/-- Witness for C6: the concrete IDE handle whose read fails with error 21. -/
theorem C6_witness :
    (efi_main ⟨Except.ok ([] ++ hReadErr :: []), true⟩).1 = EfiStatus.error 21 ∧
    EfiStatus.error 21 ≠ EFI_SUCCESS ∧
    dumpBytes (efi_main ⟨Except.ok ([] ++ hReadErr :: []), true⟩).2 = [] ∧
    countBufFree (efi_main ⟨Except.ok ([] ++ hReadErr :: []), true⟩).2 = 1 ∧
    countBufAlloc (efi_main ⟨Except.ok ([] ++ hReadErr :: []), true⟩).2 = 1 :=
  C6_read_error_no_dump [] hReadErr [] ⟨0x80, 0x01, 0x01⟩ devReadErr 21
    (by intro h hh; simp at hh) rfl rfl rfl rfl

/-- Claim C7: round-trip of read-and-render: for every backend whose read of
LBA 0 succeeds with a known 512-byte content, the run succeeds, the transfer
buffer after the read holds exactly that content, the hex dump emits exactly
those 512 bytes in order, and its text is line-structured: one line per
16-byte chunk (every chunk has exactly 16 bytes), each byte rendered as
exactly two hexadecimal digits, bytes separated by single spaces (the source
also prints one trailing space before each line break). -/
theorem C7_read_render_roundtrip (m : HandleDev) (cc : ClassCode) (dev : BlockDev)
    (data : List Nat)
    (hsig : sigOf m = some cc) (hm : isIdeMatch cc = true)
    (hb : m.blockBind = Except.ok dev)
    (hr : dev.readBlocks dev.mediaId LBA BufferSize = Except.ok data)
    (hlen : data.length = 512) :
    bufAfterRead data = data ∧
    (efi_main ⟨Except.ok [m], true⟩).1 = EFI_SUCCESS ∧
    dumpBytes (efi_main ⟨Except.ok [m], true⟩).2 = data ∧
    dumpString (efi_main ⟨Except.ok [m], true⟩).2 = specDump data ∧
    (∀ c ∈ chunks16 data, c.length = 16) ∧
    (∀ b, (hex2 b).length = 2) := by
  obtain ⟨hp, hc⟩ := sigOf_eq_some.mp hsig
  have hbuf : bufAfterRead data = data := bufAfterRead_of_full data hlen
  have h32 : data.length = 16 * 32 := by omega
  have h1 := scanLoop_readOk m [] cc dev data hp hc hm hb hr
  have hmain : efi_main ⟨Except.ok [m], true⟩ =
      (EFI_SUCCESS, Event.locateAlloc :: Event.pciBindReq :: Event.msg msgFound ::
        Event.bufAlloc (List.replicate BufferSize 0) ::
        Event.readReq dev.mediaId LBA BufferSize ::
        Event.msg msgSector :: (dumpFrom 0 (bufAfterRead data) ++ [Event.bufFree])) := by
    simp [efi_main, h1]
  have hdump : dumpFrom 0 (bufAfterRead data) = ((chunks16 data).map lineEvents).flatten := by
    rw [hbuf]
    simpa using dumpFrom_chunks 32 0 data h32
  have hcongr : (chunks16 data).map (fun c => dumpString (lineEvents c)) =
      (chunks16 data).map specLine := by
    apply List.map_congr_left
    intro c hcmem
    have hclen := chunks16_length_all 32 data h32 c hcmem
    have hcne : c ≠ [] := by intro h0; rw [h0] at hclen; cases hclen
    exact dumpString_lineEvents c hcne
  refine ⟨hbuf, ?_, ?_, ?_, chunks16_length_all 32 data h32, fun b => rfl⟩
  · rw [hmain]
  · rw [hmain]
    simp [dumpBytes, hexByteOf, List.filterMap_append, dumpBytes_dumpFrom_of_shape, hbuf]
  · rw [hmain]
    have hclean : dumpString (Event.locateAlloc :: Event.pciBindReq :: Event.msg msgFound ::
        Event.bufAlloc (List.replicate BufferSize 0) ::
        Event.readReq dev.mediaId LBA BufferSize ::
        Event.msg msgSector :: (dumpFrom 0 (bufAfterRead data) ++ [Event.bufFree])) =
        dumpString (dumpFrom 0 (bufAfterRead data)) := by
      simp only [dumpString_cons, dumpString_append, hexText, String.empty_append]
      simp [dumpString, strConcat, hexText, String.append_empty]
    rw [hclean, hdump, dumpString_flatten, List.map_map]
    show strConcat ((chunks16 data).map (fun c => dumpString (lineEvents c))) = specDump data
    rw [hcongr]
    rfl

/-- Witness for C7: the concrete device `devFull` holding 512 bytes 0xAB. -/
theorem C7_witness :
    bufAfterRead (List.replicate 512 171) = List.replicate 512 171 ∧
    (efi_main ⟨Except.ok [hIdeFull], true⟩).1 = EFI_SUCCESS ∧
    dumpBytes (efi_main ⟨Except.ok [hIdeFull], true⟩).2 = List.replicate 512 171 ∧
    dumpString (efi_main ⟨Except.ok [hIdeFull], true⟩).2 =
      specDump (List.replicate 512 171) ∧
    (∀ c ∈ chunks16 (List.replicate 512 171), c.length = 16) ∧
    (∀ b, (hex2 b).length = 2) :=
  C7_read_render_roundtrip hIdeFull ⟨0x80, 0x01, 0x01⟩ devFull (List.replicate 512 171)
    rfl rfl rfl rfl (by simp)

/-- Claim C8: every successful transfer-buffer allocation in any run yields
the zero-filled buffer of exactly `BufferSize` bytes, every block-read request
in any run asks for logical block `LBA = 0` and exactly `BufferSize` bytes,
and `BufferSize` is 512, one sector in this design. -/
theorem C8_buffer_zeroed_one_sector (env : Env) :
    (∀ c, Event.bufAlloc c ∈ (efi_main env).2 → c = List.replicate BufferSize 0) ∧
    (∀ mid lba sz, Event.readReq mid lba sz ∈ (efi_main env).2 →
      lba = LBA ∧ sz = BufferSize) ∧
    BufferSize = 512 := by
  rcases hl : env.locate with e | handles
  · refine ⟨?_, ?_, rfl⟩
    · intro c hc
      simp [efi_main, hl] at hc
    · intro mid lba sz hc
      simp [efi_main, hl] at hc
  · have hshape := scanLoop_events_shape env.allocOk handles
    rcases hsc : scanLoop env.allocOk handles with ⟨evs, ex⟩
    rw [hsc] at hshape
    simp at hshape
    refine ⟨?_, ?_, rfl⟩
    · intro c hc
      have hmem : Event.bufAlloc c ∈ evs := by
        cases ex with
        | ret s => simpa [efi_main, hl, hsc] using hc
        | brk => simpa [efi_main, hl, hsc] using hc
        | exhausted =>
          simp [efi_main, hl, hsc] at hc
          exact hc
      exact (hshape (Event.bufAlloc c) hmem).1 c rfl
    · intro mid lba sz hc
      have hmem : Event.readReq mid lba sz ∈ evs := by
        cases ex with
        | ret s => simpa [efi_main, hl, hsc] using hc
        | brk => simpa [efi_main, hl, hsc] using hc
        | exhausted =>
          simp [efi_main, hl, hsc] at hc
          exact hc
      exact (hshape (Event.readReq mid lba sz) hmem).2 mid lba sz rfl

/-- Witness for C8: in the concrete run `envC9` the trace contains a
transfer-buffer allocation and a read request, and the theorem instantiates
on them. -/
theorem C8_witness :
    List.replicate 512 0 = List.replicate BufferSize 0 ∧ (0 : Nat) = LBA ∧ (512 : Nat) = BufferSize := by
  have h := C8_buffer_zeroed_one_sector envC9
  have h1 := h.1 (List.replicate 512 0) (by decide)
  have h2 := h.2.1 7 0 512 (by decide)
  exact ⟨by rw [← h1], h2.1, h2.2⟩

/-- Claim C9 evaluated at a failing input: in the fully successful concrete
run `envC9` the handle buffer is allocated by `LocateHandleBuffer` but no
`FreePool(HandleBuffer)` call ever occurs (the source contains none), even
though the transfer buffer is correctly released; so allocation and release
are not paired 1:1 for the handle buffer. -/
theorem C9_handle_buffer_never_freed :
    (efi_main envC9).1 = EFI_SUCCESS ∧
    Event.locateAlloc ∈ (efi_main envC9).2 ∧
    Event.locateFree ∉ (efi_main envC9).2 ∧
    countBufFree (efi_main envC9).2 = countBufAlloc (efi_main envC9).2 := by decide

/-- Claim C10: a handle on which configuration access binds but the 3-byte
class-code read fails is skipped exactly like a bind failure: the scan
continues on the remaining handles. -/
theorem C10_class_read_failure_skipped (a : Bool) (h : HandleDev)
    (rest : List HandleDev) (e : Nat)
    (hp : h.pciBind = Except.ok ()) (hc : h.classRead = Except.error e) :
    scanLoop a (h :: rest) =
      (Event.pciBindReq :: (scanLoop a rest).1, (scanLoop a rest).2) :=
  scanLoop_classFail a h rest e hp hc

/-- Witness for C10: the concrete handle whose class read fails with error 6
is skipped and the scan continues on the SATA handle. -/
theorem C10_witness :
    scanLoop true [hClassFail, hSata] =
      (Event.pciBindReq :: (scanLoop true [hSata]).1, (scanLoop true [hSata]).2) :=
  C10_class_read_failure_skipped true hClassFail [hSata] 6 rfl rfl

end UefiGuide
